import Mathlib

/-!
Verification development for the dogstatsd-utils repository.

Rust strings (&str / String) are modelled as lists of unicode scalar values
(`List Char`); byte-level operations (str::len, str::find, str::get with byte
ranges) are computed through the UTF-8 encoding of each character, so byte
offsets, char-boundary checks and byte-length prefixes behave exactly as in
Rust.  Fallible Rust code returns Option/Except-like results; Rust panics
(out-of-bounds indexing and slicing, unwraps on None, the todo and
unreachable macros) are modelled by an explicit `panicked` outcome.
-/

/-- Rust &str modelled as its sequence of unicode scalar values. -/
abbrev RStr := List Char

/-- Convert a Lean string literal to the model type (used for concrete inputs). -/
def strL (s : String) : RStr := s.toList

/-- UTF-8 encoding of one unicode scalar value (1 to 4 bytes), as in Rust. -/
def utf8Bytes (c : Char) : List Nat :=
  let v := c.toNat
  if v < 0x80 then [v]
  else if v < 0x800 then [0xC0 + v / 64, 0x80 + v % 64]
  else if v < 0x10000 then [0xE0 + v / 4096, 0x80 + v / 64 % 64, 0x80 + v % 64]
  else [0xF0 + v / 262144, 0x80 + v / 4096 % 64, 0x80 + v / 64 % 64, 0x80 + v % 64]

/-- Number of UTF-8 bytes of one character (Rust char::len_utf8). -/
def csize (c : Char) : Nat := (utf8Bytes c).length

/-- UTF-8 encoding of a string (Rust str::as_bytes). -/
def utf8Encode (s : RStr) : List Nat := (s.map utf8Bytes).flatten

/-- Byte length of a string (Rust str::len). -/
def byteLen (s : RStr) : Nat := (utf8Encode s).length

/-- Take exactly `n` bytes worth of characters from the front; `none` when the
stream ends early or byte `n` falls inside a character (not a char boundary). -/
def takeBytes : Nat → RStr → Option RStr
  | 0, _ => some []
  | _ + 1, [] => none
  | n + 1, c :: cs =>
    if csize c ≤ n + 1 then
      (takeBytes (n + 1 - csize c) cs).map (c :: ·)
    else
      none

/-- Drop exactly `n` bytes worth of characters from the front; `none` when the
stream ends early or byte `n` is not a char boundary. -/
def dropBytes : Nat → RStr → Option RStr
  | 0, s => some s
  | _ + 1, [] => none
  | n + 1, c :: cs =>
    if csize c ≤ n + 1 then
      dropBytes (n + 1 - csize c) cs
    else
      none

/-- Rust str::get with a byte range `a..b`: `none` for an inverted or
out-of-range range or one whose ends are not char boundaries. -/
def byteGet (s : RStr) (a b : Nat) : Option RStr :=
  if a ≤ b then (dropBytes a s).bind (takeBytes (b - a)) else none

/-- Byte index of the first occurrence of character `c` (Rust str::find). -/
def findByteIdx (c : Char) : RStr → Option Nat
  | [] => none
  | x :: xs => if x = c then some 0 else (findByteIdx c xs).map (· + csize x)

/-- Rust str::split on a separator character; always yields at least one
(sub)string, and the empty string splits to one empty piece. -/
def splitCh (sep : Char) : RStr → List RStr
  | [] => [[]]
  | c :: cs =>
    if c = sep then
      [] :: splitCh sep cs
    else
      match splitCh sep cs with
      | [] => [[c]]
      | t :: ts => (c :: t) :: ts

/-- Rust str::split_once: split at the first occurrence of `sep`, if any. -/
def splitOnceCh (sep : Char) : RStr → Option (RStr × RStr)
  | [] => none
  | c :: cs =>
    if c = sep then
      some ([], cs)
    else
      (splitOnceCh sep cs).map (fun p => (c :: p.1, p.2))

/-- Rust char::is_whitespace: the Unicode White_Space property. -/
def rustIsWhitespace (c : Char) : Bool :=
  let v := c.toNat
  (0x09 ≤ v && v ≤ 0x0D) || v = 0x20 || v = 0x85 || v = 0xA0 || v = 0x1680 ||
  (0x2000 ≤ v && v ≤ 0x200A) || v = 0x2028 || v = 0x2029 || v = 0x202F ||
  v = 0x205F || v = 0x3000

/-- Rust str::trim_end: remove trailing whitespace characters. -/
def rustTrimEnd (s : RStr) : RStr :=
  (s.reverse.dropWhile rustIsWhitespace).reverse

/-- Decimal digit test (Rust char::is_ascii_digit as used by numeric parsing). -/
def isAsciiDigit (c : Char) : Bool := '0' ≤ c && c ≤ '9'

/-- Rust usize::from_str: an optional leading plus sign, then one or more ASCII
digits; the value must fit in 64 bits (usize on the target), else Err. -/
def parseUsize (s : RStr) : Option Nat :=
  let body := match s with
    | '+' :: cs => cs
    | _ => s
  if body ≠ [] && body.all isAsciiDigit then
    let v := body.foldl (fun acc c => acc * 10 + (c.toNat - '0'.toNat)) 0
    if v < 2 ^ 64 then some v else none
  else
    none

/-- Mantissa part of the Rust f64 grammar: Digits, Digits dot Digits?, or dot
Digits. -/
def f64MantissaOk (m : RStr) : Bool :=
  match m with
  | '.' :: ds => ds ≠ [] && ds.all isAsciiDigit
  | _ =>
    let d := m.takeWhile isAsciiDigit
    let r := m.dropWhile isAsciiDigit
    d ≠ [] &&
      (r.isEmpty ||
        (r.head? = some '.' && (r.drop 1).all isAsciiDigit))

/-- Exponent part of the Rust f64 grammar: optional sign then Digits. -/
def f64ExpOk (e : RStr) : Bool :=
  let body := match e with
    | '+' :: cs => cs
    | '-' :: cs => cs
    | _ => e
  body ≠ [] && body.all isAsciiDigit

/-- Acceptance of Rust f64::from_str (core library): optional sign, then a
case-insensitive infinity or nan keyword or a decimal number with optional
exponent.  Only acceptance is modelled; the claims never depend on the
floating-point value of an accepted token, only on which tokens parse. -/
def f64Accepts (s : RStr) : Bool :=
  let l := s.map Char.toLower
  let body := match l with
    | '+' :: cs => cs
    | '-' :: cs => cs
    | _ => l
  body = strL "inf" || body = strL "infinity" || body = strL "nan" ||
    (match splitOnceCh 'e' body with
     | none => f64MantissaOk body
     | some (m, e) => f64MantissaOk m && f64ExpOk e)

/-- Message kinds, as in dogstatsdmsg.rs. -/
inductive DogStatsDMsgKind where
  | Metric
  | ServiceCheck
  | Event
deriving DecidableEq, Repr

/-- Metric types, as in dogstatsdmsg.rs. -/
inductive DogStatsDMetricType where
  | Count
  | Gauge
  | Histogram
  | Timer
  | Set
  | Distribution
deriving DecidableEq, Repr

/-- DogStatsDMetricType::from_str. -/
def DogStatsDMetricType.fromStr (s : RStr) : Option DogStatsDMetricType :=
  if s = strL "c" then some .Count
  else if s = strL "g" then some .Gauge
  else if s = strL "h" then some .Histogram
  else if s = strL "ms" then some .Timer
  else if s = strL "s" then some .Set
  else if s = strL "d" then some .Distribution
  else none

/-- Event alert types, as in dogstatsdmsg.rs. -/
inductive EventAlert where
  | Error
  | Warning
  | Info
  | Success
deriving DecidableEq, Repr

/-- EventAlert TryFrom a string. -/
def EventAlert.tryFrom (s : RStr) : Option EventAlert :=
  if s = strL "error" then some .Error
  else if s = strL "warning" then some .Warning
  else if s = strL "info" then some .Info
  else if s = strL "success" then some .Success
  else none

/-- Service check status values, as in dogstatsdmsg.rs. -/
inductive ServiceCheckStatus where
  | Ok
  | Warning
  | Critical
  | Unknown
deriving DecidableEq, Repr

/-- ServiceCheckStatus TryFrom a string. -/
def ServiceCheckStatus.tryFrom (s : RStr) : Option ServiceCheckStatus :=
  if s = strL "0" then some .Ok
  else if s = strL "1" then some .Warning
  else if s = strL "2" then some .Critical
  else if s = strL "3" then some .Unknown
  else none

/-- Parsed metric line (DogStatsDMetricStr).  f64 values are carried as their
accepted source tokens: no claim depends on the numeric value of a metric,
only on which tokens parse and how many there are. -/
structure DogStatsDMetricStr where
  name : RStr
  values : List RStr
  sampleRate : Option RStr
  timestamp : Option RStr
  containerId : Option RStr
  metricType : DogStatsDMetricType
  tags : List RStr
  rawMsg : RStr
deriving DecidableEq, Repr

/-- Parsed event line (DogStatsDEventStr). -/
structure DogStatsDEventStr where
  title : RStr
  text : RStr
  timestamp : Option RStr
  hostname : Option RStr
  priority : Option RStr
  alertType : EventAlert
  aggregationKey : Option RStr
  sourceTypeName : Option RStr
  tags : List RStr
  rawMsg : RStr
deriving DecidableEq, Repr

/-- Parsed service check line (DogStatsDServiceCheckStr). -/
structure DogStatsDServiceCheckStr where
  name : RStr
  status : ServiceCheckStatus
  timestamp : Option RStr
  hostname : Option RStr
  message : Option RStr
  tags : List RStr
  rawMsg : RStr
deriving DecidableEq, Repr

/-- The DogStatsDMsg enum. -/
inductive DogStatsDMsg where
  | metric (m : DogStatsDMetricStr)
  | event (e : DogStatsDEventStr)
  | serviceCheck (c : DogStatsDServiceCheckStr)
deriving DecidableEq, Repr

/-- Outcome of running a fallible Rust function: a value, a
DogStatsDMsgError::ParseError with its kind and reason, or a Rust panic
(out-of-bounds index or slice, todo macro, and so on). -/
inductive PResult (α : Type) where
  | ok (a : α)
  | err (kind : DogStatsDMsgKind) (reason : String)
  | panicked
deriving DecidableEq, Repr

/-- Monadic fold over PResult, modelling a Rust for loop whose body can return
early with an error or panic. -/
def pfold {α β : Type} (f : α → β → PResult α) : α → List β → PResult α
  | a, [] => .ok a
  | a, b :: bs =>
    match f a b with
    | .ok a' => pfold f a' bs
    | .err k r => .err k r
    | .panicked => .panicked

/-- Value segment of a metric line: every colon-separated token must parse as
f64 (first failure yields the error in the source; the outcome is the same). -/
def parseValues (vs : List RStr) : Option (List RStr) :=
  if vs.all f64Accepts then some vs else none

/-- DogStatsDMsg::parse_metric (dogstatsdmsg.rs lines 311 to 408), translated
clause by clause.  Note that the sample-rate, timestamp, container-id and tag
segments are looked up with find over all pipe-separated parts, and that the
raw_msg field of a metric is the trimmed line. -/
def parseMetric (strMsg : RStr) : PResult DogStatsDMsg :=
  let s := rustTrimEnd strMsg
  let parts := splitCh '|' s
  match parts with
  | [] => .err .Metric "Unknown error"
  | prepipe :: _ =>
    match splitOnceCh ':' prepipe with
    | none => .err .Metric "Name or value missing"
    | some (name, strValues) =>
      match parseValues (splitCh ':' strValues) with
      | none => .err .Metric "Invalid or no value found"
      | some values =>
        match parts.get? 1 with
        | none => .err .Metric "No metric type found"
        | some tyStr =>
          if byteLen tyStr > 2 then .err .Metric "Too many chars for metric type"
          else
            match DogStatsDMetricType.fromStr tyStr with
            | none => .err .Metric "Invalid metric type found."
            | some mt =>
              let tags := match parts.find? (fun p => p.head? = some '#') with
                | some t => splitCh ',' (t.drop 1)
                | none => []
              let timestamp := (parts.find? (fun p => p.head? = some 'T')).map (·.drop 1)
              let sampleRate := (parts.find? (fun p => p.head? = some '@')).map (·.drop 1)
              let containerId :=
                (parts.find? (fun p => (strL "c:").isPrefixOf p)).map (·.drop 2)
              .ok (.metric {
                name := name
                values := values
                sampleRate := sampleRate
                timestamp := timestamp
                containerId := containerId
                metricType := mt
                tags := tags
                rawMsg := s })

/-- Error reason used when a declared event title length runs past the end of
the message. -/
def titleOverrunReason : String := "Title length specified is longer than msg length"

/-- Error reason used when a declared event text length runs past the end of
the message. -/
def textOverrunReason : String := "Text length specified is longer than msg length"

/-- Header stage of DogStatsDMsg::parse_event (dogstatsdmsg.rs lines 200 to
228): locate the braces, slice the length list out of them (a plain indexed
slice, which panics when the closing brace precedes the opening one), and
parse the first two comma-separated entries as usize.  Indexing lengths[1]
panics when the list has a single entry.  Returns the byte index of the
closing brace together with the declared title and text lengths. -/
def eventHeader (s : RStr) : PResult (Nat × Nat × Nat) :=
  match findByteIdx '{' s with
  | none => .err .Event "No opening brace found"
  | some startIdx =>
    match findByteIdx '}' s with
    | none => .err .Event "No closing brace found"
    | some endIdx =>
      match byteGet s (startIdx + 1) endIdx with
      | none => .panicked
      | some lengthsStr =>
        match splitCh ',' lengthsStr with
        | [] => .panicked
        | l0 :: rest =>
          match parseUsize l0 with
          | none => .err .Event "Invalid title length specified"
          | some titleLen =>
            match rest with
            | [] => .panicked
            | l1 :: _ =>
              match parseUsize l1 with
              | none => .err .Event "Invalid text length specified"
              | some textLen => .ok (endIdx, titleLen, textLen)

/-- Mutable optional-field state of parse_event before the field loop. -/
structure EvFields where
  timestamp : Option RStr
  hostname : Option RStr
  priority : Option RStr
  alertType : EventAlert
  aggregationKey : Option RStr
  sourceTypeName : Option RStr
  tags : List RStr
deriving DecidableEq, Repr

/-- Initial event field state (alert type defaults to Info). -/
def EvFields.init : EvFields :=
  { timestamp := none, hostname := none, priority := none, alertType := .Info,
    aggregationKey := none, sourceTypeName := none, tags := [] }

/-- One iteration of the parse_event field loop (dogstatsdmsg.rs lines 271 to
293).  The value of a d, h, p, t, k or s field is the byte slice part[2..],
which panics when the segment is shorter than two bytes or byte 2 is not a
char boundary; a tag segment extends the tag list; anything else errors. -/
def evFieldStep (st : EvFields) (part : RStr) : PResult EvFields :=
  match part.head? with
  | some 'd' =>
    match byteGet part 2 (byteLen part) with
    | none => .panicked
    | some v => .ok { st with timestamp := some v }
  | some 'h' =>
    match byteGet part 2 (byteLen part) with
    | none => .panicked
    | some v => .ok { st with hostname := some v }
  | some 'p' =>
    match byteGet part 2 (byteLen part) with
    | none => .panicked
    | some v => .ok { st with priority := some v }
  | some 't' =>
    match byteGet part 2 (byteLen part) with
    | none => .panicked
    | some v => .ok { st with alertType := (EventAlert.tryFrom v).getD .Info }
  | some 'k' =>
    match byteGet part 2 (byteLen part) with
    | none => .panicked
    | some v => .ok { st with aggregationKey := some v }
  | some 's' =>
    match byteGet part 2 (byteLen part) with
    | none => .panicked
    | some v => .ok { st with sourceTypeName := some v }
  | some '#' => .ok { st with tags := st.tags ++ splitCh ',' (part.drop 1) }
  | _ => .err .Event "Unknown event field value found"

/-- DogStatsDMsg::parse_event (dogstatsdmsg.rs lines 197 to 309).  Works on
the trimmed line but stores the original, untrimmed line in raw_msg.  Title
and text are byte-offset slices taken with str::get, so a declared length
that runs past the end (or cuts a character) yields an overrun ParseError. -/
def parseEvent (origMsg : RStr) : PResult DogStatsDMsg :=
  let s := rustTrimEnd origMsg
  match eventHeader s with
  | .err k r => .err k r
  | .panicked => .panicked
  | .ok (endIdx, titleLen, textLen) =>
    let titleStart := endIdx + 2
    let titleEnd := titleStart + titleLen
    let textStart := titleEnd + 1
    let textEnd := textStart + textLen
    match byteGet s titleStart titleEnd with
    | none => .err .Event titleOverrunReason
    | some title =>
      match byteGet s textStart textEnd with
      | none => .err .Event textOverrunReason
      | some text =>
        let postTextIdx := endIdx + 2 + titleLen + textLen + 1
        let fieldsRes : PResult EvFields :=
          if postTextIdx < byteLen s then
            match byteGet s postTextIdx (byteLen s) with
            | none => .panicked
            | some postText =>
              if postText.head? = some '|' then
                pfold evFieldStep EvFields.init (splitCh '|' (postText.drop 1))
              else
                .err .Event "data present after title and text, but did not start with a pipe"
          else
            .ok EvFields.init
        match fieldsRes with
        | .err k r => .err k r
        | .panicked => .panicked
        | .ok f =>
          .ok (.event {
            title := title
            text := text
            timestamp := f.timestamp
            hostname := f.hostname
            priority := f.priority
            alertType := f.alertType
            aggregationKey := f.aggregationKey
            sourceTypeName := f.sourceTypeName
            tags := f.tags
            rawMsg := origMsg })

/-- Mutable optional-field state of parse_servicecheck before the field loop. -/
structure ScFields where
  timestamp : Option RStr
  hostname : Option RStr
  message : Option RStr
  tags : List RStr
deriving DecidableEq, Repr

/-- Initial service check field state. -/
def ScFields.init : ScFields :=
  { timestamp := none, hostname := none, message := none, tags := [] }

/-- One iteration of the parse_servicecheck field loop (dogstatsdmsg.rs lines
470 to 484).  The value of a d, h or m field is the byte slice field[2..],
which panics when the segment is shorter than two bytes or byte 2 is not a
char boundary. -/
def scFieldStep (st : ScFields) (field : RStr) : PResult ScFields :=
  match field.head? with
  | some 'd' =>
    match byteGet field 2 (byteLen field) with
    | none => .panicked
    | some v => .ok { st with timestamp := some v }
  | some 'h' =>
    match byteGet field 2 (byteLen field) with
    | none => .panicked
    | some v => .ok { st with hostname := some v }
  | some 'm' =>
    match byteGet field 2 (byteLen field) with
    | none => .panicked
    | some v => .ok { st with message := some v }
  | some '#' => .ok { st with tags := st.tags ++ splitCh ',' (field.drop 1) }
  | _ => .err .ServiceCheck "Unknown servicecheck field value found"

/-- DogStatsDMsg::parse_servicecheck (dogstatsdmsg.rs lines 412 to 495).
Works on the trimmed line but stores the original, untrimmed line in raw_msg.
The reason strings for a missing name or status read could-not where the
source has a contraction; no claim inspects those reasons. -/
def parseServiceCheck (origMsg : RStr) : PResult DogStatsDMsg :=
  let s := rustTrimEnd origMsg
  match splitCh '|' s with
  | [] => .err .ServiceCheck "Not enough fields in msg"
  | pre :: fields =>
    if pre ≠ strL "_sc" then .err .ServiceCheck "Unexpected prefix found for service check"
    else
      match fields with
      | [] => .err .ServiceCheck "Not enough fields, could not find name"
      | name :: rest =>
        match rest with
        | [] => .err .ServiceCheck "Not enough fields, could not find status"
        | statusStr :: rest2 =>
          match ServiceCheckStatus.tryFrom statusStr with
          | none => .err .ServiceCheck "Invalid status found."
          | some status =>
            match pfold scFieldStep ScFields.init rest2 with
            | .err k r => .err k r
            | .panicked => .panicked
            | .ok f =>
              .ok (.serviceCheck {
                name := name
                status := status
                timestamp := f.timestamp
                hostname := f.hostname
                message := f.message
                tags := f.tags
                rawMsg := origMsg })

/-- DogStatsDMsg::new (dogstatsdmsg.rs lines 497 to 505): dispatch on the
underscore-e and underscore-sc prefixes, metric otherwise. -/
def newMsg (s : RStr) : PResult DogStatsDMsg :=
  if (strL "_e").isPrefixOf s then parseEvent s
  else if (strL "_sc").isPrefixOf s then parseServiceCheck s
  else parseMetric s

/-- Lexicographic byte-order comparison on byte strings, the order in which
Ord on Rust str (and hence a BTreeSet of string references) compares its
elements. -/
def byteLE : List Nat → List Nat → Bool
  | [], _ => true
  | _ :: _, [] => false
  | a :: as, b :: bs =>
    if a < b then true
    else if a = b then byteLE as bs
    else false

/-- Propositional form of byteLE, used as the sorting relation. -/
def rB (a b : List Nat) : Prop := byteLE a b = true

instance : DecidableRel rB := fun a b => instDecidableEqBool (byteLE a b) true

/-- Sorted iteration order of a BTreeSet of byte strings: duplicates collapse
to one element (a BTreeSet insert of an equal element keeps the existing one)
and iteration is in ascending byte order. -/
def sortedDedupKeys (ks : List (List Nat)) : List (List Nat) :=
  List.insertionSort rB ks.dedup

/-- Native-endian byte image of a Hasher::write_usize call (8 bytes,
little-endian on the targets the crate builds for). -/
def usizeBytes (n : Nat) : List Nat :=
  (List.range 8).map fun i => n / 256 ^ i % 256

/-- Byte stream fed to the context hasher by analyze_msgs (analysis.rs lines
351 to 363): write_usize of the name byte length, the name bytes, then for
each tag in BTreeSet order (ascending byte order, duplicates collapsed)
write_usize of the tag byte length followed by the tag bytes. -/
def hashWrites (name : RStr) (tags : List RStr) : List Nat :=
  usizeBytes (byteLen name) ++ utf8Encode name ++
    ((sortedDedupKeys (tags.map utf8Encode)).map fun k => usizeBytes k.length ++ k).flatten

/-- Context hash of a metric: the randomly seeded SipHash hasher is modelled
as an arbitrary function H of the byte stream written into it, which is all
the analyzer relies on (only equality of hashes matters for context
counting). -/
def contextHash (H : List Nat → Nat) (name : RStr) (tags : List RStr) : Nat :=
  H (hashWrites name tags)

/-- Counters of DogStatsDBatchStats that the claims concern: the message
counter, the per-kind totals and per-metric-type sub-counts, the multivalue
counter and the stream of context hashes (the context map keys in insertion
order).  The quantile sketches, float counter and unique-tag set of the
source struct are not modelled; no claim mentions them. -/
structure DogStatsDBatchStats where
  numMsgs : Nat
  metricTotal : Nat
  eventTotal : Nat
  scTotal : Nat
  countCount : Nat
  countGauge : Nat
  countSet : Nat
  countTimer : Nat
  countHistogram : Nat
  countDistribution : Nat
  numMsgsWithMultivalue : Nat
  contextHashes : List Nat
deriving DecidableEq, Repr

/-- num_contexts: the number of distinct context hashes (the size of the
context map after the analysis loop). -/
def DogStatsDBatchStats.numContexts (st : DogStatsDBatchStats) : Nat :=
  st.contextHashes.dedup.length

/-- Zero-initialised batch stats, as built at the top of analyze_msgs. -/
def initStats : DogStatsDBatchStats :=
  { numMsgs := 0, metricTotal := 0, eventTotal := 0, scTotal := 0,
    countCount := 0, countGauge := 0, countSet := 0, countTimer := 0,
    countHistogram := 0, countDistribution := 0,
    numMsgsWithMultivalue := 0, contextHashes := [] }

/-- Per-metric-type sub-count increment of the kind map. -/
def bumpMetricType (st : DogStatsDBatchStats) :
    DogStatsDMetricType → DogStatsDBatchStats
  | .Count => { st with countCount := st.countCount + 1 }
  | .Gauge => { st with countGauge := st.countGauge + 1 }
  | .Set => { st with countSet := st.countSet + 1 }
  | .Timer => { st with countTimer := st.countTimer + 1 }
  | .Histogram => { st with countHistogram := st.countHistogram + 1 }
  | .Distribution => { st with countDistribution := st.countDistribution + 1 }

/-- One iteration of the analyze_msgs loop (analysis.rs lines 293 to 378) on
one line read from the reader: num_msgs is incremented unconditionally, then
the line is parsed; a parse error only logs (nothing else changes), an event
or service check bumps its kind counter, and a metric bumps the metric
counters, the multivalue counter when it carries more than one value, and
records its context hash.  A parser panic aborts the whole analysis (none). -/
def analyzeStep (H : List Nat → Nat) (st : DogStatsDBatchStats) (line : RStr) :
    Option DogStatsDBatchStats :=
  let st := { st with numMsgs := st.numMsgs + 1 }
  match newMsg line with
  | .panicked => none
  | .err _ _ => some st
  | .ok (.event _) => some { st with eventTotal := st.eventTotal + 1 }
  | .ok (.serviceCheck _) => some { st with scTotal := st.scTotal + 1 }
  | .ok (.metric m) =>
    let st :=
      if m.values.length > 1 then
        { st with numMsgsWithMultivalue := st.numMsgsWithMultivalue + 1 }
      else st
    let st :=
      { st with contextHashes := st.contextHashes ++ [contextHash H m.name m.tags] }
    let st := bumpMetricType { st with metricTotal := st.metricTotal + 1 } m.metricType
    some st

/-- Tail of the analyze_msgs loop over the remaining lines. -/
def analyzeAux (H : List Nat → Nat) (st : DogStatsDBatchStats) :
    List RStr → Option DogStatsDBatchStats
  | [] => some st
  | l :: ls =>
    match analyzeStep H st l with
    | none => none
    | some st' => analyzeAux H st' ls

/-- analyze_msgs, applied to the list of lines the reader yields.  H is the
randomly seeded hasher (see contextHash). -/
def analyzeMsgs (H : List Nat → Nat) (lines : List RStr) :
    Option DogStatsDBatchStats :=
  analyzeAux H initStats lines

/-- Value of an f32 expression, at the precision the claims need: NaN,
positive infinity, or a finite IEEE quotient kept symbolically as numerator
and denominator (with a nonzero denominator; a zero numerator makes the
quotient exactly 0.0, and no claim depends on the rounded value of a nonzero
quotient). -/
inductive RustF32 where
  | nan
  | posInf
  | finite (num den : Nat)
deriving DecidableEq, Repr

/-- Whether the represented f32 value is 0.0: exactly the finite quotients
with zero numerator among the values this development constructs. -/
def RustF32.isZero : RustF32 → Bool
  | .finite 0 _ => true
  | _ => false

/-- IEEE-754 division of two f32 values obtained from u32 counters
(a as f32 / b as f32): 0.0 / 0.0 is NaN, positive / 0.0 is positive
infinity, and a nonzero denominator gives the finite rounded quotient. -/
def f32DivNat (a b : Nat) : RustF32 :=
  if b = 0 then
    if a = 0 then .nan else .posInf
  else
    .finite a b

/-- The multivalue_pack_probability field computed by
DogStatsDBatchStats::to_lading_payload_config (analysis.rs line 207):
num_msgs_with_multivalue as f32 divided by num_msgs as f32, with no guard on
a zero num_msgs. -/
def multivaluePackProbability (st : DogStatsDBatchStats) : RustF32 :=
  f32DivNat st.numMsgsWithMultivalue st.numMsgs

/-- BufRead::read_line as used by Utf8DogStatsDReader: take everything up to
and including the first newline (or the whole rest of the stream), returning
the line read and the remaining stream. -/
def readLineU : RStr → RStr × RStr
  | [] => ([], [])
  | c :: cs =>
    if c = '\n' then ([c], cs)
    else
      let (l, r) := readLineU cs
      (c :: l, r)

/-- Utf8DogStatsDReader::read_msg (utf8dogstatsdreader.rs lines 13 to 27):
read a line; at end of stream return 0; otherwise trim trailing whitespace
and return 0 when nothing remains, else 1 with the trimmed line.  Returns
(result code, line contents, remaining stream). -/
def readMsgU (s : RStr) : Nat × RStr × RStr :=
  if s.isEmpty then (0, [], [])
  else
    let (raw, rest) := readLineU s
    let t := rustTrimEnd raw
    if t.isEmpty then (0, t, rest) else (1, t, rest)

/-- Repeatedly call readMsgU until it returns 0, collecting the yielded
lines, with fuel for termination (one byte of fuel per character suffices,
as each read consumes at least one character). -/
def drainAux : Nat → RStr → List RStr
  | 0, _ => []
  | fuel + 1, s =>
    let (code, t, rest) := readMsgU s
    if code = 0 then [] else t :: drainAux fuel rest

/-- All messages Utf8DogStatsDReader::read_msg yields for a stream, in
order, until the first 0 return. -/
def drainU (s : RStr) : List RStr :=
  drainAux (s.length + 1) s

/-- Drop one trailing newline, as Rust str::lines does to each line. -/
def stripNl (raw : RStr) : RStr :=
  if raw.getLast? = some '\n' then raw.dropLast else raw

/-- Fueled splitting of a stream into its lines. -/
def rustLinesAux : Nat → RStr → List RStr
  | 0, _ => []
  | fuel + 1, s =>
    if s.isEmpty then []
    else
      let (raw, rest) := readLineU s
      stripNl raw :: rustLinesAux fuel rest

/-- The newline-delimited lines of a stream with their line feeds removed
(a trailing carriage return, tolerated by the framer, survives here and is
removed by the trim in readMsgU). -/
def rustLinesU (s : RStr) : List RStr :=
  rustLinesAux (s.length + 1) s

/-- Protobuf base-128 varint decoding as done by prost: up to ten bytes, most
significant groups last, value truncated to 64 bits; `none` on a truncated or
over-long varint. -/
def varintAux : Nat → Nat → Nat → List Nat → Option (Nat × List Nat)
  | _, _, 10, _ => none
  | acc, shift, count, b :: rest =>
    if b < 128 then some ((acc + b * 2 ^ shift) % 2 ^ 64, rest)
    else varintAux (acc + (b % 128) * 2 ^ shift) (shift + 7) (count + 1) rest
  | _, _, _, [] => none

/-- Decode one varint from the front of a byte stream. -/
def varintDecode (bytes : List Nat) : Option (Nat × List Nat) :=
  varintAux 0 0 0 bytes

/-- The UnixDogstatsdMsg protobuf record carried by a replay file
(timestamp int64, payload_size int32, payload bytes, pid int32, ancillary
bytes, ancillary_size int32; integer fields are kept as their decoded u64
varint images). -/
structure UnixDogstatsdMsg where
  timestamp : Nat
  payloadSize : Nat
  payload : List Nat
  pid : Nat
  ancillary : List Nat
  ancillarySize : Nat
deriving DecidableEq, Repr

/-- Default (all fields zero or empty), as prost initialises a message. -/
def UnixDogstatsdMsg.default : UnixDogstatsdMsg :=
  { timestamp := 0, payloadSize := 0, payload := [], pid := 0,
    ancillary := [], ancillarySize := 0 }

/-- Skip an unknown protobuf field of the given wire type, as prost does:
varint (0), 64-bit (1), length-delimited (2) or 32-bit (5); anything else is
a decode error. -/
def protoSkipField (wire : Nat) (bytes : List Nat) : Option (List Nat) :=
  if wire = 0 then (varintDecode bytes).map (·.2)
  else if wire = 1 then
    if 8 ≤ bytes.length then some (bytes.drop 8) else none
  else if wire = 2 then
    match varintDecode bytes with
    | none => none
    | some (len, rest) => if len ≤ rest.length then some (rest.drop len) else none
  else if wire = 5 then
    if 4 ≤ bytes.length then some (bytes.drop 4) else none
  else none

/-- Fueled prost decode loop for UnixDogstatsdMsg: read a key varint,
dispatch on field number and wire type (a known field with the wrong wire
type is a decode error, an unknown field is skipped), last value wins.  One
unit of fuel per input byte suffices since every field consumes at least one
byte. -/
def protoFieldsAux : Nat → UnixDogstatsdMsg → List Nat → Option UnixDogstatsdMsg
  | _, m, [] => some m
  | 0, _, _ :: _ => none
  | fuel + 1, m, bytes =>
    match varintDecode bytes with
    | none => none
    | some (key, rest) =>
      let fieldNo := key / 8
      let wire := key % 8
      if fieldNo = 1 ∧ wire = 0 then
        match varintDecode rest with
        | none => none
        | some (v, rest') => protoFieldsAux fuel { m with timestamp := v } rest'
      else if fieldNo = 2 ∧ wire = 0 then
        match varintDecode rest with
        | none => none
        | some (v, rest') => protoFieldsAux fuel { m with payloadSize := v } rest'
      else if fieldNo = 3 ∧ wire = 2 then
        match varintDecode rest with
        | none => none
        | some (len, rest') =>
          if len ≤ rest'.length then
            protoFieldsAux fuel { m with payload := rest'.take len } (rest'.drop len)
          else none
      else if fieldNo = 4 ∧ wire = 0 then
        match varintDecode rest with
        | none => none
        | some (v, rest') => protoFieldsAux fuel { m with pid := v } rest'
      else if fieldNo = 5 ∧ wire = 2 then
        match varintDecode rest with
        | none => none
        | some (len, rest') =>
          if len ≤ rest'.length then
            protoFieldsAux fuel { m with ancillary := rest'.take len } (rest'.drop len)
          else none
      else if fieldNo = 6 ∧ wire = 0 then
        match varintDecode rest with
        | none => none
        | some (v, rest') => protoFieldsAux fuel { m with ancillarySize := v } rest'
      else if fieldNo = 1 ∨ fieldNo = 2 ∨ fieldNo = 3 ∨ fieldNo = 4 ∨ fieldNo = 5 ∨ fieldNo = 6 then
        none
      else
        match protoSkipField wire rest with
        | none => none
        | some rest' => protoFieldsAux fuel m rest'

/-- UnixDogstatsdMsg::decode (prost) on a byte buffer. -/
def protoDecodeUnixMsg (bytes : List Nat) : Option UnixDogstatsdMsg :=
  protoFieldsAux (bytes.length + 1) UnixDogstatsdMsg.default bytes

/-- Errors of ReplayReader::read_msg: an io error from read_exact (short
read) or a protobuf decode failure. -/
inductive ReplayErr where
  | shortRead
  | protoDecodeFailure
deriving DecidableEq, Repr

/-- State of a ReplayReader (replay.rs) after its 8-byte file header has been
consumed by construction: the remaining byte stream and the
read_all_unixdogstatsdmsg flag. -/
structure ReplayState where
  buf : List Nat
  drained : Bool
deriving DecidableEq, Repr

/-- Read::read_exact of n bytes from the front of the stream. -/
def readExact (n : Nat) (buf : List Nat) : Option (List Nat × List Nat) :=
  if n ≤ buf.length then some (buf.take n, buf.drop n) else none

/-- Little-endian u32 from four bytes. -/
def leU32 (bs : List Nat) : Nat :=
  bs.getD 0 0 + 256 * bs.getD 1 0 + 65536 * bs.getD 2 0 + 16777216 * bs.getD 3 0

/-- ReplayReader::read_msg (replay.rs lines 87 to 124): if the drained flag
is set return None immediately; otherwise read a 4-byte little-endian record
length; a zero length is the sentinel separating the records from the tagger
state, which sets the drained flag and returns None without touching the
remaining bytes; otherwise read and prost-decode that many bytes.  On a
failed read_exact the Rust stream position is unspecified; the model keeps
the unread bytes (no claim depends on the state after an io error). -/
def ReplayReader.readMsg (s : ReplayState) :
    Except ReplayErr (Option UnixDogstatsdMsg) × ReplayState :=
  if s.drained then (.ok none, s)
  else
    match readExact 4 s.buf with
    | none => (.error .shortRead, s)
    | some (lenBytes, rest) =>
      let messageLength := leU32 lenBytes
      if messageLength = 0 then (.ok none, { buf := rest, drained := true })
      else
        match readExact messageLength rest with
        | none => (.error .shortRead, { buf := rest, drained := s.drained })
        | some (msgBuf, rest') =>
          match protoDecodeUnixMsg msgBuf with
          | some m => (.ok (some m), { buf := rest', drained := s.drained })
          | none => (.error .protoDecodeFailure, { buf := rest', drained := s.drained })

/-- n successive calls of ReplayReader::read_msg, collecting the results. -/
def ReplayReader.readN :
    Nat → ReplayState → List (Except ReplayErr (Option UnixDogstatsdMsg)) × ReplayState
  | 0, s => ([], s)
  | n + 1, s =>
    let (r, s') := ReplayReader.readMsg s
    let (rs, s'') := ReplayReader.readN n s'
    (r :: rs, s'')

/-- Datalink type recorded in a pcap file header; the reader accepts only
ETHERNET and LINUX_SLL2 at construction time. -/
inductive PcapDataLink where
  | ethernet
  | linuxSll2
  | otherLink (code : Nat)
deriving DecidableEq, Repr

/-- Outcome of get_udp_payload_from_packet: Ok with an optional payload (the
source function never constructs its error variant), or a Rust panic (an
expect on a failed header parse, the todo macro on a non-IPv4 Ethernet
frame, the unreachable macro on an unsupported datalink). -/
inductive PcapOutcome where
  | ok (payload : Option (List Nat))
  | panicked
deriving DecidableEq, Repr

/-- Modelled from the spec: pnet Ethernet header parsing, used by
get_udp_payload_from_packet (the pnet crate is outside the repository).  The
spec: parse the 14-byte Ethernet header, yielding the EtherType (big-endian
bytes 12 and 13) and the remaining frame bytes; fail when the frame is
shorter than the header. -/
def ethParse (data : List Nat) : Option (Nat × List Nat) :=
  if data.length < 14 then none
  else some (256 * data.getD 12 0 + data.getD 13 0, data.drop 14)

/-- Modelled from the spec: pnet Linux cooked-mode-v2 header parsing, used by
get_udp_payload_from_packet (the pnet crate is outside the repository).  The
spec: parse the 20-byte cooked-mode-v2 header, yielding the protocol type
(big-endian bytes 0 and 1) and the remaining frame bytes; fail when the
frame is shorter than the header. -/
def sll2Parse (data : List Nat) : Option (Nat × List Nat) :=
  if data.length < 20 then none
  else some (256 * data.getD 0 0 + data.getD 1 0, data.drop 20)

/-- Modelled from the spec: pnet IPv4 header parsing, used by
get_udp_payload_from_packet (the pnet crate is outside the repository).  The
spec: descend from the IPv4 header to its transport payload; the next
protocol is header byte 9 and the payload starts after the 4-times-IHL-byte
header; fail when fewer than 20 bytes are available. -/
def ipv4Parse (data : List Nat) : Option (Nat × List Nat) :=
  if data.length < 20 then none
  else some (data.getD 9 0, data.drop (4 * (data.getD 0 0 % 16)))

/-- Modelled from the spec: pnet UDP header parsing, used by
get_udp_payload_from_ipv4 (the pnet crate is outside the repository).  The
spec: parse the 8-byte UDP header and yield the datagram body; fail when
fewer than 8 bytes are available. -/
def udpParse (data : List Nat) : Option (List Nat) :=
  if 8 ≤ data.length then some (data.drop 8) else none

/-- IP protocol number of UDP. -/
def udpProtocolNumber : Nat := 17

/-- EtherType of IPv4. -/
def ipv4EtherType : Nat := 0x0800

/-- get_udp_payload_from_ipv4 (pcapreader.rs lines 124 to 148), applied to
the parsed next-level protocol and payload of an IPv4 packet: a UDP packet
yields Ok Some of its body, a UDP header that fails to parse logs and yields
Ok None, and any other transport protocol logs and yields Ok None. -/
def getUdpPayloadFromIpv4 (proto : Nat) (ipPayload : List Nat) : PcapOutcome :=
  if proto = udpProtocolNumber then
    match udpParse ipPayload with
    | some body => .ok (some body)
    | none => .ok none
  else .ok none

/-- get_udp_payload_from_packet (pcapreader.rs lines 56 to 122), translated
arm by arm.  Under the ETHERNET datalink: a frame the Ethernet parser
rejects panics (expect), an IPv4 frame descends (and a failed IPv4 parse
panics, expect), and any other EtherType falls out of the match arm into the
todo macro, a panic.  Under LINUX_SLL2: a rejected frame or failed IPv4
parse panics likewise, but a non-IPv4 protocol type falls through to the end
of the function, which returns Ok Some of the entire raw frame.  Any other
datalink hits the unreachable macro. -/
def getUdpPayloadFromPacket (dl : PcapDataLink) (data : List Nat) : PcapOutcome :=
  match dl with
  | .ethernet =>
    match ethParse data with
    | none => .panicked
    | some (etherType, framePayload) =>
      if etherType = ipv4EtherType then
        match ipv4Parse framePayload with
        | none => .panicked
        | some (proto, ipPayload) => getUdpPayloadFromIpv4 proto ipPayload
      else .panicked
  | .linuxSll2 =>
    match sll2Parse data with
    | none => .panicked
    | some (protocolType, framePayload) =>
      if protocolType = ipv4EtherType then
        match ipv4Parse framePayload with
        | none => .panicked
        | some (proto, ipPayload) => getUdpPayloadFromIpv4 proto ipPayload
      else .ok (some data)
  | .otherLink _ => .panicked

/-! Helper lemmas about the byte order, the sorted dedup, and byte slicing. -/

theorem byteLE_total : ∀ a b : List Nat, byteLE a b = true ∨ byteLE b a = true := by
  intro a
  induction a with
  | nil => intro b; left; rfl
  | cons x xs ih =>
    intro b
    cases b with
    | nil => right; rfl
    | cons y ys =>
      rcases Nat.lt_trichotomy x y with h | h | h
      · left; simp [byteLE, h]
      · subst h
        rcases ih ys with h' | h'
        · left; simp [byteLE, h']
        · right; simp [byteLE, h']
      · right; simp [byteLE, h, Nat.not_lt_of_gt h, Nat.ne_of_gt h]

theorem byteLE_antisymm :
    ∀ a b : List Nat, byteLE a b = true → byteLE b a = true → a = b := by
  intro a
  induction a with
  | nil =>
    intro b _ hba
    cases b with
    | nil => rfl
    | cons y ys => simp [byteLE] at hba
  | cons x xs ih =>
    intro b hab hba
    cases b with
    | nil => simp [byteLE] at hab
    | cons y ys =>
      by_cases hxy : x < y
      · simp [byteLE, hxy, Nat.not_lt_of_gt hxy, Nat.ne_of_gt hxy] at hba
      · by_cases hyx : y < x
        · simp [byteLE, hyx, Nat.not_lt_of_gt hyx, Nat.ne_of_gt hyx] at hab
        · have hxe : x = y := Nat.le_antisymm (Nat.not_lt.mp hyx) (Nat.not_lt.mp hxy)
          subst hxe
          simp [byteLE] at hab hba
          rw [ih ys hab hba]

theorem byteLE_trans :
    ∀ a b c : List Nat, byteLE a b = true → byteLE b c = true → byteLE a c = true := by
  intro a
  induction a with
  | nil => intro b c _ _; rfl
  | cons x xs ih =>
    intro b c hab hbc
    cases b with
    | nil => simp [byteLE] at hab
    | cons y ys =>
      cases c with
      | nil => simp [byteLE] at hbc
      | cons z zs =>
        by_cases hxy : x < y
        · by_cases hyz : y < z
          · simp [byteLE, Nat.lt_trans hxy hyz]
          · by_cases hye : y = z
            · subst hye; simp [byteLE, hxy]
            · simp [byteLE, hyz, hye] at hbc
        · by_cases hxe : x = y
          · subst hxe
            simp [byteLE, hxy] at hab
            by_cases hyz : x < z
            · simp [byteLE, hyz]
            · by_cases hye : x = z
              · subst hye
                simp [byteLE, hyz] at hbc ⊢
                exact ih ys zs hab hbc
              · simp [byteLE, hyz, hye] at hbc
          · simp [byteLE, hxy, hxe] at hab

theorem sortedDedupKeys_perm {ks ks' : List (List Nat)} (h : ks.Perm ks') :
    sortedDedupKeys ks = sortedDedupKeys ks' := by
  haveI : IsTotal (List Nat) rB := ⟨fun a b => byteLE_total a b⟩
  haveI : IsTrans (List Nat) rB := ⟨fun a b c => byteLE_trans a b c⟩
  haveI : IsAntisymm (List Nat) rB := ⟨fun a b => byteLE_antisymm a b⟩
  apply List.eq_of_perm_of_sorted
    (((List.perm_insertionSort rB ks.dedup).trans h.dedup).trans
      (List.perm_insertionSort rB ks'.dedup).symm)
    (List.sorted_insertionSort rB ks.dedup)
    (List.sorted_insertionSort rB ks'.dedup)

theorem hashWrites_perm (name : RStr) {tags tags' : List RStr}
    (h : tags.Perm tags') : hashWrites name tags = hashWrites name tags' := by
  unfold hashWrites
  rw [sortedDedupKeys_perm (h.map utf8Encode)]

theorem bumpMetricType_contextHashes (st : DogStatsDBatchStats)
    (mt : DogStatsDMetricType) :
    (bumpMetricType st mt).contextHashes = st.contextHashes := by
  cases mt <;> simp [bumpMetricType]

theorem bumpMetricType_numMsgs (st : DogStatsDBatchStats)
    (mt : DogStatsDMetricType) :
    (bumpMetricType st mt).numMsgs = st.numMsgs := by
  cases mt <;> simp [bumpMetricType]

theorem bumpMetricType_kindTotals (st : DogStatsDBatchStats)
    (mt : DogStatsDMetricType) :
    (bumpMetricType st mt).metricTotal = st.metricTotal ∧
    (bumpMetricType st mt).eventTotal = st.eventTotal ∧
    (bumpMetricType st mt).scTotal = st.scTotal := by
  cases mt <;> simp [bumpMetricType]

/-- C1: for every metric name and tag list and every permutation of that tag
list, the context hash the analyzer computes is unchanged (the hasher is fed
the same byte stream, for any hasher H); consequently analyze_msgs assigns
two metric lines that differ only in tag order (same name, permuted tags) to
the same context and counts them once in num_contexts. -/
theorem context_hash_tag_order_invariant
    (H : List Nat → Nat) (name : RStr) (tags tags' : List RStr)
    (hperm : tags.Perm tags')
    (l1 l2 : RStr) (m1 m2 : DogStatsDMetricStr)
    (h1 : newMsg l1 = .ok (.metric m1)) (h2 : newMsg l2 = .ok (.metric m2))
    (hname : m1.name = m2.name) (htags : m1.tags.Perm m2.tags) :
    contextHash H name tags = contextHash H name tags' ∧
    ∃ st, analyzeMsgs H [l1, l2] = some st ∧ st.numContexts = 1 := by
  constructor
  · unfold contextHash
    rw [hashWrites_perm name hperm]
  · have key : contextHash H m2.name m2.tags = contextHash H m1.name m1.tags := by
      unfold contextHash
      rw [← hname, hashWrites_perm m1.name htags]
    simp only [analyzeMsgs, analyzeAux, analyzeStep, h1, h2]
    refine ⟨_, rfl, ?_⟩
    simp [DogStatsDBatchStats.numContexts, bumpMetricType_contextHashes,
      apply_ite (DogStatsDBatchStats.contextHashes), key, initStats]

/-- Witness for C1 at a concrete pair of lines differing only in tag order. -/
theorem context_hash_tag_order_invariant_witness :
    contextHash (fun _ => 0) [] [strL "a", strL "b"]
      = contextHash (fun _ => 0) [] [strL "b", strL "a"] ∧
    ∃ st, analyzeMsgs (fun _ => 0) [strL "m:1|g|#a,b", strL "m:1|g|#b,a"] = some st ∧
      st.numContexts = 1 :=
  context_hash_tag_order_invariant (fun _ => 0) [] [strL "a", strL "b"]
    [strL "b", strL "a"] (by decide)
    (strL "m:1|g|#a,b") (strL "m:1|g|#b,a")
    { name := strL "m", values := [strL "1"], sampleRate := none,
      timestamp := none, containerId := none, metricType := .Gauge,
      tags := [strL "a", strL "b"], rawMsg := strL "m:1|g|#a,b" }
    { name := strL "m", values := [strL "1"], sampleRate := none,
      timestamp := none, containerId := none, metricType := .Gauge,
      tags := [strL "b", strL "a"], rawMsg := strL "m:1|g|#b,a" }
    (by decide) (by decide) (by decide) (by decide)

/-- C2 counterexample: the analyzer's context hashing collects the tags into
a BTreeSet, which deduplicates; the byte stream written to the hasher for a
message with tags a,a equals the one for tags a, so the context hashes are
equal (for the concrete hasher shown and every other one), contradicting the
claim that the duplicated tag yields a different hash. -/
theorem context_hash_duplicate_tag_counterexample :
    hashWrites (strL "m") [strL "a", strL "a"] = hashWrites (strL "m") [strL "a"] ∧
    contextHash (fun bs => bs.foldl (fun a b => a * 257 + b + 1) 1)
        (strL "m") [strL "a", strL "a"]
      = contextHash (fun bs => bs.foldl (fun a b => a * 257 + b + 1) 1)
        (strL "m") [strL "a"] := by
  constructor <;> decide

/-- C2 amended: the context hash deduplicates tags.  The tags are collected
into a BTreeSet before hashing, so repeating a tag that already occurs in
the tag list leaves the hashed byte stream, and hence the context hash under
every hasher, unchanged. -/
theorem context_hash_dedups_tags
    (H : List Nat → Nat) (name : RStr) (tags : List RStr) (t : RStr)
    (ht : t ∈ tags) :
    contextHash H name (t :: tags) = contextHash H name tags := by
  unfold contextHash hashWrites sortedDedupKeys
  rw [List.map_cons, List.dedup_cons_of_mem (List.mem_map_of_mem utf8Encode ht)]

/-- Witness for C2 amended at the concrete duplicated tag. -/
theorem context_hash_dedups_tags_witness :
    contextHash (fun _ => 0) (strL "m") [strL "a", strL "a"]
      = contextHash (fun _ => 0) (strL "m") [strL "a"] :=
  context_hash_dedups_tags (fun _ => 0) (strL "m") [strL "a"] (strL "a") (by decide)

theorem readLineU_length : ∀ s : RStr, s ≠ [] → (readLineU s).2.length < s.length := by
  intro s
  induction s with
  | nil => intro h; exact absurd rfl h
  | cons c cs ih =>
    intro _
    by_cases hc : c = '\n'
    · simp [readLineU, hc]
    · rcases hcs : cs with _ | ⟨d, ds⟩
      · simp [readLineU, hc, hcs]
      · have := ih (by simp [hcs])
        rw [hcs] at this
        simpa [readLineU, hc, hcs] using Nat.lt_trans this (Nat.lt_succ_self _)

theorem rustTrimEnd_append_newline (l : RStr) :
    rustTrimEnd (l ++ ['\n']) = rustTrimEnd l := by
  have h : rustIsWhitespace '\n' = true := by decide
  simp [rustTrimEnd, List.dropWhile, h]

theorem rustTrimEnd_stripNl (raw : RStr) :
    rustTrimEnd (stripNl raw) = rustTrimEnd raw := by
  unfold stripNl
  by_cases hg : raw.getLast? = some '\n'
  · rw [if_pos hg]
    have hne : raw ≠ [] := by
      intro h
      rw [h] at hg
      simp at hg
    have hlast : raw.getLast hne = '\n' := by
      have := List.getLast?_eq_getLast raw hne
      rw [hg] at this
      exact (Option.some_injective _ this).symm
    conv_rhs => rw [← List.dropLast_append_getLast hne, hlast]
    exact (rustTrimEnd_append_newline raw.dropLast).symm
  · rw [if_neg hg]

theorem drainAux_eq_takeWhile :
    ∀ (fuel : Nat) (s : RStr), s.length ≤ fuel →
      drainAux fuel s =
        ((rustLinesAux fuel s).map rustTrimEnd).takeWhile (fun l => !l.isEmpty) := by
  intro fuel
  induction fuel with
  | zero =>
    intro s hs
    have : s = [] := List.eq_nil_of_length_eq_zero (Nat.le_zero.mp hs)
    subst this
    rfl
  | succ fuel ih =>
    intro s hs
    by_cases hemp : s.isEmpty
    · have : s = [] := by
        cases s with
        | nil => rfl
        | cons c cs => simp at hemp
      subst this
      rfl
    · rcases hrl : readLineU s with ⟨raw, rest⟩
      have hne : s ≠ [] := by
        intro h
        rw [h] at hemp
        simp at hemp
      have hrest : rest.length ≤ fuel := by
        have := readLineU_length s hne
        rw [hrl] at this
        exact Nat.lt_succ_iff.mp (Nat.lt_of_lt_of_le this hs)
      have hts : rustTrimEnd (stripNl raw) = rustTrimEnd raw := rustTrimEnd_stripNl raw
      by_cases hte : (rustTrimEnd raw).isEmpty
      · simp [drainAux, rustLinesAux, readMsgU, hemp, hrl, hte, hts]
      · simp [drainAux, rustLinesAux, readMsgU, hemp, hrl, hte, hts, ih rest hrest]

/-- C3 counterexample: the raw-text framer does not skip a line that is empty
after trimming; it returns 0 (end of stream) there, so for the input stream
of the claim the second metric line is never yielded. -/
theorem utf8_reader_blank_line_counterexample :
    drainU (strL "a:1|g\n\nb:2|g\n") = [strL "a:1|g"] ∧
    (strL "b:2|g") ∉ drainU (strL "a:1|g\n\nb:2|g\n") := by
  constructor <;> decide

/-- C3 amended: for every input byte stream the raw-text framer yields the
trimmed lines of the stream in order only up to (and excluding) the first
line that is empty after trimming; such a line (or the end of the stream)
terminates reading, and later non-empty lines are not yielded. -/
theorem utf8_reader_yields_lines_upto_blank (s : RStr) :
    drainU s = ((rustLinesU s).map rustTrimEnd).takeWhile (fun l => !l.isEmpty) :=
  drainAux_eq_takeWhile (s.length + 1) s (Nat.le_succ _)

/-- C4: once ReplayReader::read_msg reads a four-byte zero record length it
returns EndOfStream (Ok None) with the drained flag set, leaving the
remaining bytes in place; and from a drained state, any number n of further
reads all return EndOfStream without consuming or decoding anything (the
state, including the untouched trailing tagger-state bytes, is unchanged). -/
theorem replay_sentinel_sticky_eos
    (s : ReplayState) (rest : List Nat) (n : Nat)
    (hdr : s.drained = false) (hbuf : s.buf = [0, 0, 0, 0] ++ rest) :
    ReplayReader.readMsg s = (.ok none, { buf := rest, drained := true }) ∧
    ReplayReader.readN n { buf := rest, drained := true } =
      (List.replicate n (.ok none), { buf := rest, drained := true }) := by
  constructor
  · have h4 : readExact 4 s.buf = some ([0, 0, 0, 0], rest) := by
      rw [hbuf]
      simp [readExact, List.take_append, List.drop_append]
    simp [ReplayReader.readMsg, hdr, h4, leU32]
  · induction n with
    | zero => rfl
    | succ k ihk =>
      simp [ReplayReader.readN, ReplayReader.readMsg, List.replicate, ihk]

/-- Witness for C4 at a concrete stream whose sentinel is followed by two
tagger-state bytes. -/
theorem replay_sentinel_sticky_eos_witness :
    ReplayReader.readMsg { buf := [0, 0, 0, 0, 9, 9], drained := false }
      = (.ok none, { buf := [9, 9], drained := true }) ∧
    ReplayReader.readN 3 { buf := [9, 9], drained := true } =
      (List.replicate 3 (.ok none), { buf := [9, 9], drained := true }) :=
  replay_sentinel_sticky_eos { buf := [0, 0, 0, 0, 9, 9], drained := false }
    [9, 9] 3 rfl rfl

/-- C5: DogStatsDMsg::new is not total.  An event line whose brace-delimited
length list has a single entry panics on the lengths[1] index, and an event
or service-check field segment consisting of just one byte (here d) panics
on the part[2..] byte slice, instead of producing a ParseError. -/
theorem parser_panics_on_short_inputs :
    newMsg (strL "_e{5}:hello|x") = .panicked ∧
    newMsg (strL "_sc|a|0|d") = .panicked ∧
    newMsg (strL "_e{2,4}:ab|cdef|d") = .panicked := by
  refine ⟨?_, ?_, ?_⟩ <;> decide

/-- C6 counterexample: a stream consisting of one unparsable line leaves
num_msgs at 1 while every kind total stays 0, so num_msgs differs from the
sum of the kind totals. -/
theorem analyzer_totals_counterexample :
    (analyzeMsgs (fun _ => 0) [strL "garbage"]).map
        (fun st => (st.numMsgs, st.metricTotal + st.eventTotal + st.scTotal))
      = some (1, 0) := by
  decide

theorem bumpMetricType_metricTotal (st : DogStatsDBatchStats)
    (mt : DogStatsDMetricType) :
    (bumpMetricType st mt).metricTotal = st.metricTotal := by
  cases mt <;> simp [bumpMetricType]

theorem bumpMetricType_eventTotal (st : DogStatsDBatchStats)
    (mt : DogStatsDMetricType) :
    (bumpMetricType st mt).eventTotal = st.eventTotal := by
  cases mt <;> simp [bumpMetricType]

theorem bumpMetricType_scTotal (st : DogStatsDBatchStats)
    (mt : DogStatsDMetricType) :
    (bumpMetricType st mt).scTotal = st.scTotal := by
  cases mt <;> simp [bumpMetricType]

theorem analyzeStep_deltas (H : List Nat → Nat) (st st' : DogStatsDBatchStats)
    (l : RStr) (h : analyzeStep H st l = some st') :
    st'.numMsgs = st.numMsgs + 1 ∧
    st'.metricTotal + st'.eventTotal + st'.scTotal
      = st.metricTotal + st.eventTotal + st.scTotal +
        (if (match newMsg l with | .ok _ => true | _ => false) = true then 1 else 0) ∧
    newMsg l ≠ .panicked := by
  unfold analyzeStep at h
  cases hm : newMsg l with
  | panicked =>
    rw [hm] at h
    exact absurd h (by simp)
  | err k r =>
    rw [hm] at h
    simp only [Option.some_inj] at h
    subst h
    refine ⟨by simp, ?_, by simp [hm]⟩
    simp [hm]
  | ok m =>
    cases m with
    | metric mm =>
      rw [hm] at h
      simp only [Option.some_inj] at h
      subst h
      refine ⟨?_, ?_, by simp [hm]⟩
      · simp [bumpMetricType_numMsgs, apply_ite (DogStatsDBatchStats.numMsgs)]
      · simp [bumpMetricType_metricTotal, bumpMetricType_eventTotal,
          bumpMetricType_scTotal, apply_ite (DogStatsDBatchStats.metricTotal),
          apply_ite (DogStatsDBatchStats.eventTotal),
          apply_ite (DogStatsDBatchStats.scTotal), hm]
        omega
    | event me =>
      rw [hm] at h
      simp only [Option.some_inj] at h
      subst h
      refine ⟨by simp, ?_, by simp [hm]⟩
      simp [hm]
      omega
    | serviceCheck mc =>
      rw [hm] at h
      simp only [Option.some_inj] at h
      subst h
      refine ⟨by simp, ?_, by simp [hm]⟩
      simp [hm]
      omega

theorem analyzeAux_totals (H : List Nat → Nat) :
    ∀ (lines : List RStr) (st0 st : DogStatsDBatchStats),
      analyzeAux H st0 lines = some st →
      st.numMsgs = st0.numMsgs + lines.length ∧
      st.metricTotal + st.eventTotal + st.scTotal
        = st0.metricTotal + st0.eventTotal + st0.scTotal +
          lines.countP (fun l => match newMsg l with | .ok _ => true | _ => false) ∧
      lines.countP (fun l => match newMsg l with | .ok _ => true | _ => false) +
        lines.countP (fun l => match newMsg l with | .err _ _ => true | _ => false)
        = lines.length := by
  intro lines
  induction lines with
  | nil =>
    intro st0 st h
    simp only [analyzeAux, Option.some_inj] at h
    subst h
    simp
  | cons l ls ih =>
    intro st0 st h
    unfold analyzeAux at h
    cases hstep : analyzeStep H st0 l with
    | none => rw [hstep] at h; exact absurd h (by simp)
    | some st1 =>
      rw [hstep] at h
      obtain ⟨d1, d2, d3⟩ := analyzeStep_deltas H st0 st1 l hstep
      obtain ⟨i1, i2, i3⟩ := ih st1 st h
      refine ⟨?_, ?_, ?_⟩
      · rw [i1, d1]
        simp [Nat.add_assoc, Nat.add_comm 1]
      · rw [i2, d2]
        simp [List.countP_cons]
        omega
      · simp only [List.countP_cons]
        cases hnm : newMsg l with
        | ok m => simp [hnm]; omega
        | err k r => simp [hnm]; omega
        | panicked => exact absurd hnm d3

/-- C6 amended: after analyze_msgs drains the reader, num_msgs equals the
sum of the per-kind totals plus the number of lines that failed to parse
(parse failures are skipped for every other statistic but are still counted
in num_msgs, so the claimed equality without the failure term only holds on
streams where every line parses). -/
theorem analyzer_totals (H : List Nat → Nat) (lines : List RStr)
    (st : DogStatsDBatchStats) (h : analyzeMsgs H lines = some st) :
    st.numMsgs = st.metricTotal + st.eventTotal + st.scTotal +
      lines.countP (fun l => match newMsg l with | .err _ _ => true | _ => false) := by
  obtain ⟨d1, d2, d3⟩ := analyzeAux_totals H lines initStats st h
  simp [initStats] at d1 d2
  omega

/-- Witness for C6 amended on a stream with one parsing and one failing
line (the projections of the resulting stats record are reduced). -/
theorem analyzer_totals_witness :
    (2 : Nat) = 1 + 0 + 0 +
      ([strL "a:1|g", strL "bad"].countP
        (fun l => match newMsg l with | .err _ _ => true | _ => false)) :=
  analyzer_totals (fun _ => 0) [strL "a:1|g", strL "bad"]
    { numMsgs := 2, metricTotal := 1, eventTotal := 0, scTotal := 0,
      countCount := 0, countGauge := 1, countSet := 0, countTimer := 0,
      countHistogram := 0, countDistribution := 0, numMsgsWithMultivalue := 0,
      contextHashes := [0] }
    (by decide)

/-- C7 counterexample: on an empty stream analyze_msgs leaves num_msgs at 0,
and the projected multivalue_pack_probability is the f32 division 0.0/0.0,
which is NaN and not the value 0. -/
theorem multivalue_prob_counterexample :
    (analyzeMsgs (fun _ => 0) []).map multivaluePackProbability
      = some RustF32.nan ∧
    RustF32.isZero RustF32.nan = false := by
  constructor <;> decide

/-- C7 amended: the projected configuration sets multivalue_pack_probability
to the f32 division of num_msgs_with_multivalue by num_msgs; when num_msgs
is 0 the result is NaN (0/0) or positive infinity (positive/0), never the
value 0, because the division is unguarded. -/
theorem multivalue_prob_formula (st : DogStatsDBatchStats) :
    (st.numMsgs ≠ 0 →
      multivaluePackProbability st
        = .finite st.numMsgsWithMultivalue st.numMsgs) ∧
    (st.numMsgs = 0 →
      multivaluePackProbability st
          = (if st.numMsgsWithMultivalue = 0 then .nan else .posInf) ∧
        RustF32.isZero (multivaluePackProbability st) = false) := by
  unfold multivaluePackProbability f32DivNat
  constructor
  · intro h
    simp [h]
  · intro h
    rw [h]
    by_cases hmv : st.numMsgsWithMultivalue = 0 <;> simp [hmv, RustF32.isZero]

/-- Witness for C7 amended at a zeroed stats record. -/
theorem multivalue_prob_formula_witness :
    multivaluePackProbability initStats
        = (if initStats.numMsgsWithMultivalue = 0 then .nan else .posInf) ∧
      RustF32.isZero (multivaluePackProbability initStats) = false :=
  (multivalue_prob_formula initStats).2 rfl

theorem parseMetric_ok_shape (L : RStr) (m : DogStatsDMsg)
    (h : parseMetric L = .ok m) :
    ∃ mm, m = .metric mm ∧ mm.rawMsg = rustTrimEnd L := by
  unfold parseMetric at h
  simp only [] at h
  repeat' split at h
  all_goals
    first
      | (injection h; done)
      | (injection h with h'; exact ⟨_, h'.symm, rfl⟩)

theorem parseEvent_ok_shape (L : RStr) (m : DogStatsDMsg)
    (h : parseEvent L = .ok m) :
    ∃ e, m = .event e ∧ e.rawMsg = L := by
  unfold parseEvent at h
  simp only [] at h
  repeat' split at h
  all_goals
    first
      | (injection h; done)
      | (injection h with h'; exact ⟨_, h'.symm, rfl⟩)

theorem parseServiceCheck_ok_shape (L : RStr) (m : DogStatsDMsg)
    (h : parseServiceCheck L = .ok m) :
    ∃ c, m = .serviceCheck c ∧ c.rawMsg = L := by
  unfold parseServiceCheck at h
  simp only [] at h
  repeat' split at h
  all_goals
    first
      | (injection h; done)
      | (injection h with h'; exact ⟨_, h'.symm, rfl⟩)

/-- C8 counterexample: a service check line with a trailing newline parses
successfully, but its raw_msg field is the original, untrimmed line, not
the line with trailing whitespace removed (the parser trims its working copy
but stores the unmodified input; the repository test suite asserts the same
untrimmed behavior for events). -/
theorem raw_msg_trim_counterexample :
    (match newMsg (strL "_sc|a|0|m:x\n") with
      | .ok (.serviceCheck c) => some c.rawMsg
      | _ => none) = some (strL "_sc|a|0|m:x\n") ∧
    rustTrimEnd (strL "_sc|a|0|m:x\n") ≠ strL "_sc|a|0|m:x\n" := by
  constructor <;> decide

/-- C8 amended: for every successfully parsed line, a metric's raw_msg is the
trimmed line (raw == trim_end of the input), while an event's and a service
check's raw_msg is the unmodified input line, trailing whitespace included. -/
theorem raw_msg_fields (L : RStr) (m : DogStatsDMetricStr)
    (e : DogStatsDEventStr) (c : DogStatsDServiceCheckStr) :
    (newMsg L = .ok (.metric m) → m.rawMsg = rustTrimEnd L) ∧
    (newMsg L = .ok (.event e) → e.rawMsg = L) ∧
    (newMsg L = .ok (.serviceCheck c) → c.rawMsg = L) := by
  refine ⟨?_, ?_, ?_⟩ <;> intro h <;> unfold newMsg at h
  · split at h
    · obtain ⟨e', he, _⟩ := parseEvent_ok_shape L _ h
      exact DogStatsDMsg.noConfusion he
    · split at h
      · obtain ⟨c', hc, _⟩ := parseServiceCheck_ok_shape L _ h
        exact DogStatsDMsg.noConfusion hc
      · obtain ⟨mm, hm, hraw⟩ := parseMetric_ok_shape L _ h
        injection hm with hm'
        rw [← hm'] at hraw
        exact hraw
  · split at h
    · obtain ⟨e', he, hraw⟩ := parseEvent_ok_shape L _ h
      injection he with he'
      rw [← he'] at hraw
      exact hraw
    · split at h
      · obtain ⟨c', hc, _⟩ := parseServiceCheck_ok_shape L _ h
        exact DogStatsDMsg.noConfusion hc
      · obtain ⟨mm, hm, _⟩ := parseMetric_ok_shape L _ h
        exact DogStatsDMsg.noConfusion hm
  · split at h
    · obtain ⟨e', he, _⟩ := parseEvent_ok_shape L _ h
      exact DogStatsDMsg.noConfusion he
    · split at h
      · obtain ⟨c', hc, hraw⟩ := parseServiceCheck_ok_shape L _ h
        injection hc with hc'
        rw [← hc'] at hraw
        exact hraw
      · obtain ⟨mm, hm, _⟩ := parseMetric_ok_shape L _ h
        exact DogStatsDMsg.noConfusion hm

/-- Witness for C8 amended: the metric, event and service check parts applied
at concrete lines carrying a trailing newline, hypotheses discharged by
evaluation. -/
theorem raw_msg_fields_witness :
    ({ name := strL "m", values := [strL "1"], sampleRate := none,
       timestamp := none, containerId := none, metricType := .Gauge,
       tags := [], rawMsg := strL "m:1|g" } : DogStatsDMetricStr).rawMsg
      = rustTrimEnd (strL "m:1|g\n") ∧
    ({ title := strL "t", text := strL "t", timestamp := none,
       hostname := none, priority := none, alertType := .Info,
       aggregationKey := none, sourceTypeName := none, tags := [],
       rawMsg := strL "_e{1,1}:t|t\n" } : DogStatsDEventStr).rawMsg
      = strL "_e{1,1}:t|t\n" ∧
    ({ name := strL "a", status := .Ok, timestamp := none, hostname := none,
       message := none, tags := [],
       rawMsg := strL "_sc|a|0\n" } : DogStatsDServiceCheckStr).rawMsg
      = strL "_sc|a|0\n" :=
  ⟨(raw_msg_fields (strL "m:1|g\n")
      { name := strL "m", values := [strL "1"], sampleRate := none,
        timestamp := none, containerId := none, metricType := .Gauge,
        tags := [], rawMsg := strL "m:1|g" }
      { title := strL "t", text := strL "t", timestamp := none,
        hostname := none, priority := none, alertType := .Info,
        aggregationKey := none, sourceTypeName := none, tags := [],
        rawMsg := strL "_e{1,1}:t|t\n" }
      { name := strL "a", status := .Ok, timestamp := none, hostname := none,
        message := none, tags := [], rawMsg := strL "_sc|a|0\n" }).1
    (by decide),
   (raw_msg_fields (strL "_e{1,1}:t|t\n")
      { name := strL "m", values := [strL "1"], sampleRate := none,
        timestamp := none, containerId := none, metricType := .Gauge,
        tags := [], rawMsg := strL "m:1|g" }
      { title := strL "t", text := strL "t", timestamp := none,
        hostname := none, priority := none, alertType := .Info,
        aggregationKey := none, sourceTypeName := none, tags := [],
        rawMsg := strL "_e{1,1}:t|t\n" }
      { name := strL "a", status := .Ok, timestamp := none, hostname := none,
        message := none, tags := [], rawMsg := strL "_sc|a|0\n" }).2.1
    (by decide),
   (raw_msg_fields (strL "_sc|a|0\n")
      { name := strL "m", values := [strL "1"], sampleRate := none,
        timestamp := none, containerId := none, metricType := .Gauge,
        tags := [], rawMsg := strL "m:1|g" }
      { title := strL "t", text := strL "t", timestamp := none,
        hostname := none, priority := none, alertType := .Info,
        aggregationKey := none, sourceTypeName := none, tags := [],
        rawMsg := strL "_e{1,1}:t|t\n" }
      { name := strL "a", status := .Ok, timestamp := none, hostname := none,
        message := none, tags := [], rawMsg := strL "_sc|a|0\n" }).2.2
    (by decide)⟩

theorem byteLen_cons (c : Char) (t : RStr) :
    byteLen (c :: t) = csize c + byteLen t := by
  simp [byteLen, utf8Encode, csize]

theorem takeBytes_some_byteLen :
    ∀ (s : RStr) (n : Nat) (t : RStr), takeBytes n s = some t → byteLen t = n := by
  intro s
  induction s with
  | nil =>
    intro n t h
    cases n with
    | zero =>
      simp [takeBytes] at h
      subst h
      rfl
    | succ k => simp [takeBytes] at h
  | cons c cs ih =>
    intro n t h
    cases n with
    | zero =>
      have h2 : some ([] : RStr) = some t := h
      injection h2 with h3
      rw [← h3]
      rfl
    | succ k =>
      unfold takeBytes at h
      by_cases hcs : csize c ≤ k + 1
      · rw [if_pos hcs] at h
        cases ht : takeBytes (k + 1 - csize c) cs with
        | none => rw [ht] at h; exact absurd h (by simp)
        | some t' =>
          rw [ht] at h
          have h2 : some (c :: t') = some t := h
          injection h2 with h3
          rw [← h3, byteLen_cons, ih _ _ ht]
          omega
      · rw [if_neg hcs] at h
        exact absurd h (by simp)

theorem takeBytes_none_of_short :
    ∀ (s : RStr) (n : Nat), byteLen s < n → takeBytes n s = none := by
  intro s
  induction s with
  | nil =>
    intro n h
    cases n with
    | zero => simp [byteLen, utf8Encode] at h
    | succ k => rfl
  | cons c cs ih =>
    intro n h
    cases n with
    | zero => omega
    | succ k =>
      unfold takeBytes
      by_cases hcs : csize c ≤ k + 1
      · rw [if_pos hcs]
        rw [byteLen_cons] at h
        rw [ih (k + 1 - csize c) (by omega)]
        rfl
      · rw [if_neg hcs]

theorem dropBytes_some_byteLen :
    ∀ (s : RStr) (a : Nat) (r : RStr), dropBytes a s = some r →
      byteLen s = a + byteLen r := by
  intro s
  induction s with
  | nil =>
    intro a r h
    cases a with
    | zero =>
      simp [dropBytes] at h
      subst h
      rfl
    | succ k => simp [dropBytes] at h
  | cons c cs ih =>
    intro a r h
    cases a with
    | zero =>
      simp [dropBytes] at h
      subst h
      omega
    | succ k =>
      unfold dropBytes at h
      by_cases hcs : csize c ≤ k + 1
      · rw [if_pos hcs] at h
        have := ih _ _ h
        rw [byteLen_cons, this]
        omega
      · rw [if_neg hcs] at h
        exact absurd h (by simp)

theorem byteGet_some_byteLen (s : RStr) (a b : Nat) (t : RStr)
    (h : byteGet s a b = some t) : byteLen t = b - a := by
  unfold byteGet at h
  by_cases hab : a ≤ b
  · rw [if_pos hab] at h
    cases hd : dropBytes a s with
    | none => rw [hd] at h; exact absurd h (by simp)
    | some r =>
      rw [hd] at h
      exact takeBytes_some_byteLen r (b - a) t h
  · rw [if_neg hab] at h
    exact absurd h (by simp)

theorem byteGet_none_of_overrun (s : RStr) (a b : Nat)
    (h : byteLen s < b) : byteGet s a b = none := by
  unfold byteGet
  by_cases hab : a ≤ b
  · rw [if_pos hab]
    cases hd : dropBytes a s with
    | none => rfl
    | some r =>
      have hr := dropBytes_some_byteLen s a r hd
      show takeBytes (b - a) r = none
      exact takeBytes_none_of_short r (b - a) (by omega)
  · rw [if_neg hab]

/-- C9: for every event line whose header stage declares title and text
lengths, a successful parse returns a title and text whose UTF-8 byte
lengths equal the declared lengths (they are byte-offset slices of exactly
that many bytes); and when either declared length reaches past the end of
the trimmed message, parsing fails with the title or text length-overrun
ParseError instead. -/
theorem event_declared_lengths
    (L : RStr) (e : DogStatsDEventStr) (endIdx titleLen textLen : Nat)
    (hh : eventHeader (rustTrimEnd L) = .ok (endIdx, titleLen, textLen)) :
    (parseEvent L = .ok (.event e) →
      byteLen e.title = titleLen ∧ byteLen e.text = textLen) ∧
    (byteLen (rustTrimEnd L) < endIdx + 2 + titleLen ∨
        byteLen (rustTrimEnd L) < endIdx + 2 + titleLen + 1 + textLen →
      parseEvent L = .err .Event titleOverrunReason ∨
        parseEvent L = .err .Event textOverrunReason) := by
  constructor
  · intro hp
    unfold parseEvent at hp
    simp only [] at hp
    split at hp
    · rename_i k r heq
      rw [hh] at heq
      exact PResult.noConfusion heq
    · rename_i heq
      rw [hh] at heq
      exact PResult.noConfusion heq
    · rename_i a b c heq
      rw [hh] at heq
      injection heq with heqt
      injection heqt with he1 heqt2
      injection heqt2 with he2 he3
      subst he1
      subst he2
      subst he3
      cases ht : byteGet (rustTrimEnd L) (endIdx + 2) (endIdx + 2 + titleLen) with
      | none => rw [ht] at hp; injection hp
      | some title =>
        rw [ht] at hp
        cases hx : byteGet (rustTrimEnd L) (endIdx + 2 + titleLen + 1)
            (endIdx + 2 + titleLen + 1 + textLen) with
        | none => rw [hx] at hp; injection hp
        | some text =>
          rw [hx] at hp
          have h1 := byteGet_some_byteLen _ _ _ _ ht
          have h2 := byteGet_some_byteLen _ _ _ _ hx
          repeat' split at hp
          all_goals
            first
              | (injection hp; done)
              | (injection hp with hp1; injection hp1 with hp2; subst hp2;
                 constructor <;> (dsimp only; simp_all only [Option.some.injEq]; omega))
  · intro hover
    unfold parseEvent
    simp only []
    split
    · rename_i k r heq
      rw [hh] at heq
      exact PResult.noConfusion heq
    · rename_i heq
      rw [hh] at heq
      exact PResult.noConfusion heq
    · rename_i a b c heq
      rw [hh] at heq
      injection heq with heqt
      injection heqt with he1 heqt2
      injection heqt2 with he2 he3
      subst he1
      subst he2
      subst he3
      rcases hover with hov | hov
      · rw [byteGet_none_of_overrun (rustTrimEnd L) (endIdx + 2)
          (endIdx + 2 + titleLen) (by omega)]
        left
        rfl
      · cases ht : byteGet (rustTrimEnd L) (endIdx + 2) (endIdx + 2 + titleLen) with
        | none =>
          left
          rfl
        | some title =>
          rw [byteGet_none_of_overrun (rustTrimEnd L) (endIdx + 2 + titleLen + 1)
            (endIdx + 2 + titleLen + 1 + textLen) (by omega)]
          right
          rfl

/-- Witness for C9: the successful-parse part at a concrete event line and
the overrun part at a concrete event line whose declared title length runs
past the end. -/
theorem event_declared_lengths_witness :
    (byteLen
        ({ title := strL "ab", text := strL "cdef", timestamp := none,
           hostname := none, priority := none, alertType := .Info,
           aggregationKey := none, sourceTypeName := none, tags := [],
           rawMsg := strL "_e{2,4}:ab|cdef" } : DogStatsDEventStr).title = 2 ∧
      byteLen
        ({ title := strL "ab", text := strL "cdef", timestamp := none,
           hostname := none, priority := none, alertType := .Info,
           aggregationKey := none, sourceTypeName := none, tags := [],
           rawMsg := strL "_e{2,4}:ab|cdef" } : DogStatsDEventStr).text = 4) ∧
    (parseEvent (strL "_e{100,0}:t|") = .err .Event titleOverrunReason ∨
      parseEvent (strL "_e{100,0}:t|") = .err .Event textOverrunReason) :=
  ⟨(event_declared_lengths (strL "_e{2,4}:ab|cdef")
      { title := strL "ab", text := strL "cdef", timestamp := none,
        hostname := none, priority := none, alertType := .Info,
        aggregationKey := none, sourceTypeName := none, tags := [],
        rawMsg := strL "_e{2,4}:ab|cdef" } 6 2 4 (by decide)).1 (by decide),
   (event_declared_lengths (strL "_e{100,0}:t|")
      { title := strL "t", text := strL "", timestamp := none,
        hostname := none, priority := none, alertType := .Info,
        aggregationKey := none, sourceTypeName := none, tags := [],
        rawMsg := strL "_e{100,0}:t|" } 8 100 0 (by decide)).2
    (Or.inl (by decide))⟩

/-- C10 counterexample: a pcap record under the ETHERNET datalink whose
frame carries a non-IPv4 EtherType (here ARP, 0x0806) is not skipped: the
framer hits the todo macro and panics, rather than logging and continuing
with the next record. -/
theorem pcap_eth_non_ipv4_counterexample :
    getUdpPayloadFromPacket .ethernet
        ([0, 0, 0, 0, 0, 0, 0, 0, 0, 0, 0, 0, 8, 6] ++ List.replicate 30 0)
      = .panicked := by
  decide

/-- C10 amended: only the transport step is skip-and-continue.  A frame that
decodes as IPv4 but whose transport is not UDP, or whose UDP header fails to
parse, yields Ok None (logged and skipped, no error, no panic, no early end
of stream) under both accepted datalinks; but a non-IPv4 EtherType under
ETHERNET panics (todo macro), an unparsable link-layer or IPv4 header panics
(expect), and a non-IPv4 protocol type under LINUX_SLL2 is not skipped —
the whole raw frame is returned as if it were a datagram payload. -/
theorem pcap_ipv4_non_udp_skipped :
    (∀ (data fp ippl : List Nat) (proto : Nat),
        ethParse data = some (ipv4EtherType, fp) →
        ipv4Parse fp = some (proto, ippl) →
        proto ≠ udpProtocolNumber →
        getUdpPayloadFromPacket .ethernet data = .ok none) ∧
    (∀ (data fp ippl : List Nat) (proto : Nat),
        sll2Parse data = some (ipv4EtherType, fp) →
        ipv4Parse fp = some (proto, ippl) →
        proto ≠ udpProtocolNumber →
        getUdpPayloadFromPacket .linuxSll2 data = .ok none) ∧
    (∀ (data fp ippl : List Nat),
        ethParse data = some (ipv4EtherType, fp) →
        ipv4Parse fp = some (udpProtocolNumber, ippl) →
        udpParse ippl = none →
        getUdpPayloadFromPacket .ethernet data = .ok none) := by
  refine ⟨?_, ?_, ?_⟩
  · intro data fp ippl proto h1 h2 h3
    simp [getUdpPayloadFromPacket, h1, h2, getUdpPayloadFromIpv4, h3]
  · intro data fp ippl proto h1 h2 h3
    simp [getUdpPayloadFromPacket, h1, h2, getUdpPayloadFromIpv4, h3]
  · intro data fp ippl h1 h2 h3
    simp [getUdpPayloadFromPacket, h1, h2, getUdpPayloadFromIpv4, h3]

/-- Witness for C10 amended: an Ethernet frame carrying an IPv4 packet whose
transport is TCP (protocol 6) is skipped with Ok None. -/
theorem pcap_ipv4_non_udp_skipped_witness :
    getUdpPayloadFromPacket .ethernet
        ([0, 0, 0, 0, 0, 0, 0, 0, 0, 0, 0, 0, 8, 0] ++
          ([0x45, 0, 0, 0, 0, 0, 0, 0, 0, 6] ++ List.replicate 10 0))
      = .ok none :=
  pcap_ipv4_non_udp_skipped.1
    ([0, 0, 0, 0, 0, 0, 0, 0, 0, 0, 0, 0, 8, 0] ++
      ([0x45, 0, 0, 0, 0, 0, 0, 0, 0, 6] ++ List.replicate 10 0))
    ([0x45, 0, 0, 0, 0, 0, 0, 0, 0, 6] ++ List.replicate 10 0)
    [] 6 (by decide) (by decide) (by decide)
